import Mathlib

/-!
Verification of the salus guest-memory core against its specification.

Part 1 embeds `riscv-page-tables/src/sequential_pages.rs` (concrete code).
Part 2 embeds `src/vm_pages.rs`; its collaborators (`PhysPages`,
`PlatformPageTable`, `UnmappedPage`, `DataMeasure`, `PageVec`) are not part
of the two source files and are modelled from the specification where noted.

A `Page<S>` is a linear handle on one physical frame; in the embedding it is
represented by its physical address, a `Nat` below `2 ^ 64` that is aligned
to `S::SIZE_BYTES`.  The compile-time page size `S::SIZE_BYTES` becomes an
explicit `sz : Nat` argument.
-/

namespace SeqP

/-- Modulus of the 64-bit unsigned integers used for physical addresses. -/
def WORD : Nat := 2 ^ 64

/-- Embedding of `SequentialPages<S>` (sequential_pages.rs, lines 12-16):
a base address and a page count; the `PhantomData<S>` page-size tag becomes
the explicit `sz` argument of the operations. -/
structure SequentialPages where
  addr : Nat
  count : Nat
deriving DecidableEq

/-- Embedding of `SequentialPages::empty` (lines 20-26). -/
def SequentialPages.empty : SequentialPages := ⟨0, 0⟩

/-- Embedding of `u64::checked_add` as used on line 60. -/
def checkedAdd (a b : Nat) : Option Nat :=
  if a + b < WORD then some (a + b) else none

/-- Embedding of the loop body of `SeqPageIter::next` (lines 126-136):
yields nothing once `count` is zero; otherwise the current address is turned
back into a page through `PageAddr::new`, which requires alignment to
`S::SIZE_BYTES` (yielding `None` otherwise, via the `?`), the stored address
is advanced by `S::SIZE_BYTES` (u64 wrap-around) and the count decremented.
The fuel of the recursion is the count itself. -/
def iterGo (sz : Nat) : Nat → Nat → List Nat
  | 0, _ => []
  | n + 1, a => if a % sz = 0 then a :: iterGo sz n ((a + sz) % WORD) else []

/-- The full sequence of pages yielded by `SequentialPages::into_iter`
(lines 139-145), i.e. by repeatedly calling `SeqPageIter::next`. -/
def SeqPageIter.toList (sz : Nat) (s : SequentialPages) : List Nat :=
  iterGo sz s.count s.addr

/-- Embedding of `create_dummy_page_once_iter` (lines 148-153): a `Once`
iterator whose single element was already taken and forgotten, so it yields
nothing. -/
def dummyOnce : List Nat := []

/-- Embedding of the `while let` loop of `SequentialPages::from_pages`
(lines 58-77).  `lastAddr` is the address of the last accepted page, `seq`
the partial range built so far.  On overflow of `last_addr + SIZE_BYTES` or
on a non-consecutive address, the error is the chain
`seq.into_iter().chain(once(page)).chain(page_iter)`. -/
def fromPagesLoop (sz : Nat) : Nat → SequentialPages → List Nat →
    Except (List Nat) SequentialPages
  | _, seq, [] => .ok seq
  | lastAddr, seq, page :: rest =>
    match checkedAdd lastAddr sz with
    | none => .error (SeqPageIter.toList sz seq ++ [page] ++ rest)
    | some nextAddr =>
      if page = nextAddr then
        fromPagesLoop sz page ⟨seq.addr, seq.count + 1⟩ rest
      else
        .error (SeqPageIter.toList sz seq ++ [page] ++ rest)

/-- Embedding of `SequentialPages::from_pages` (lines 32-80).  An empty
input returns the chain of an empty range, the consumed dummy `Once`
iterator and the exhausted input iterator; otherwise the first page seeds
the partial range (count 1) and the loop runs on the remaining input. -/
def from_pages (sz : Nat) : List Nat → Except (List Nat) SequentialPages
  | [] => .error (SeqPageIter.toList sz SequentialPages.empty ++ dummyOnce ++ [])
  | first :: rest => fromPagesLoop sz first ⟨first, 1⟩ rest

/-- Embedding of `SequentialPages::base` (lines 84-86). -/
def SequentialPages.base (s : SequentialPages) : Nat := s.addr

/-- Embedding of `SequentialPages::length_bytes` (lines 89-92): a u64
multiplication; the source comments that the constructor guarantees it
cannot overflow. -/
def length_bytes (sz : Nat) (s : SequentialPages) : Nat :=
  s.count * sz % WORD

/-- The list of `n` consecutive page addresses starting at `base`, spaced by
`sz`; the shape accepted by `from_pages` and produced by enumeration. -/
def consec (base sz : Nat) : Nat → List Nat
  | 0 => []
  | n + 1 => base :: consec (base + sz) sz n

theorem consec_length (base sz n : Nat) : (consec base sz n).length = n := by
  induction n generalizing base with
  | zero => rfl
  | succ n ih => simp [consec, ih]

theorem consec_succ_append (base sz n : Nat) :
    consec base sz (n + 1) = consec base sz n ++ [base + n * sz] := by
  induction n generalizing base with
  | zero => simp [consec]
  | succ n ih =>
    rw [consec, ih, consec]
    simp [Nat.add_assoc, Nat.succ_mul, Nat.add_comm sz (n * sz)]

theorem consec_mem_of_mem {base sz n p : Nat} (h : p ∈ consec base sz n) :
    ∃ i, i < n ∧ p = base + i * sz := by
  induction n generalizing base with
  | zero => simp [consec] at h
  | succ n ih =>
    rw [consec] at h
    rcases List.mem_cons.mp h with h1 | h2
    · exact ⟨0, Nat.succ_pos n, by simp [h1]⟩
    · rcases ih h2 with ⟨i, hi, hp⟩
      exact ⟨i + 1, Nat.succ_lt_succ hi,
        by rw [hp]; ring⟩

/-- Enumeration of a range with aligned base and no mid-run wrap-around
yields exactly the consecutive addresses. -/
theorem iterGo_eq_consec (sz : Nat) :
    ∀ n a, a % sz = 0 → a + (n - 1) * sz < WORD →
    iterGo sz n a = consec a sz n := by
  intro n
  induction n with
  | zero => intro a _ _; rfl
  | succ n ih =>
    intro a ha hb
    rw [iterGo, if_pos ha, consec]
    have hb' : a + n * sz < WORD := by
      simpa using hb
    cases n with
    | zero => rfl
    | succ m =>
      have hone : sz ≤ (m + 1) * sz := Nat.le_mul_of_pos_left sz (Nat.succ_pos m)
      have hstep : a + sz < WORD := by omega
      rw [Nat.mod_eq_of_lt hstep]
      congr 1
      refine ih (a + sz) (by rw [Nat.add_mod_right]; exact ha) ?_
      have hmul : (m + 1) * sz = m * sz + sz := by ring
      simp only [Nat.add_sub_cancel]
      omega

theorem toList_eq_consec {sz : Nat} (s : SequentialPages)
    (ha : s.addr % sz = 0) (hb : s.addr + (s.count - 1) * sz < WORD) :
    SeqPageIter.toList sz s = consec s.addr sz s.count :=
  iterGo_eq_consec sz s.count s.addr ha hb

/-- One accepted step of the scan: within range and consecutive. -/
theorem fromPagesLoop_cons_step (sz lastAddr a0 c : Nat) (rest : List Nat)
    (hov : lastAddr + sz < WORD) :
    fromPagesLoop sz lastAddr ⟨a0, c⟩ ((lastAddr + sz) :: rest) =
      fromPagesLoop sz (lastAddr + sz) ⟨a0, c + 1⟩ rest := by
  simp [fromPagesLoop, checkedAdd, if_pos hov]

/-- One overflowing step of the scan: `checked_add` fails. -/
theorem fromPagesLoop_cons_overflow (sz lastAddr a0 c page : Nat) (rest : List Nat)
    (hov : ¬ lastAddr + sz < WORD) :
    fromPagesLoop sz lastAddr ⟨a0, c⟩ (page :: rest) =
      .error (SeqPageIter.toList sz ⟨a0, c⟩ ++ [page] ++ rest) := by
  simp [fromPagesLoop, checkedAdd, if_neg hov]

/-- One mismatching step of the scan: the next page is not consecutive. -/
theorem fromPagesLoop_cons_mismatch (sz lastAddr a0 c page : Nat) (rest : List Nat)
    (hov : lastAddr + sz < WORD) (hne : page ≠ lastAddr + sz) :
    fromPagesLoop sz lastAddr ⟨a0, c⟩ (page :: rest) =
      .error (SeqPageIter.toList sz ⟨a0, c⟩ ++ [page] ++ rest) := by
  simp [fromPagesLoop, checkedAdd, if_pos hov, hne]

/-- Scanning a consecutive run extends the partial range page by page and
leaves the loop at the tail, provided no step overflows. -/
theorem fromPagesLoop_consec_append (sz : Nat) :
    ∀ (m lastAddr a0 c : Nat) (tail : List Nat),
    lastAddr + m * sz < WORD →
    fromPagesLoop sz lastAddr ⟨a0, c⟩ (consec (lastAddr + sz) sz m ++ tail) =
      fromPagesLoop sz (lastAddr + m * sz) ⟨a0, c + m⟩ tail := by
  intro m
  induction m with
  | zero => intro lastAddr a0 c tail _; simp [consec]
  | succ m ih =>
    intro lastAddr a0 c tail hb
    have hone : sz ≤ (m + 1) * sz := Nat.le_mul_of_pos_left sz (Nat.succ_pos m)
    have hmul : (m + 1) * sz = m * sz + sz := by ring
    have hstep : lastAddr + sz < WORD := by omega
    rw [consec, List.cons_append, fromPagesLoop_cons_step sz lastAddr a0 c _ hstep]
    have htail := ih (lastAddr + sz) a0 (c + 1) tail (by omega)
    rw [htail]
    have h1 : lastAddr + sz + m * sz = lastAddr + (m + 1) * sz := by ring
    have h2 : c + 1 + m = c + (m + 1) := by omega
    rw [h1, h2]

/-- Inversion of a successful scan: the result keeps the seeded base, counts
every accepted page, the input was exactly the consecutive run after
`lastAddr`, and (for a non-empty input) the last accepted address stayed
below `WORD`. -/
theorem fromPagesLoop_ok (sz : Nat) :
    ∀ (pages : List Nat) (lastAddr a0 c : Nat) (s : SequentialPages),
    fromPagesLoop sz lastAddr ⟨a0, c⟩ pages = .ok s →
    s.addr = a0 ∧ s.count = c + pages.length ∧
    pages = consec (lastAddr + sz) sz pages.length ∧
    (pages = [] ∨ lastAddr + pages.length * sz < WORD) := by
  intro pages
  induction pages with
  | nil =>
    intro lastAddr a0 c s h
    rw [fromPagesLoop] at h
    cases h
    exact ⟨rfl, by simp, rfl, Or.inl rfl⟩
  | cons page rest ih =>
    intro lastAddr a0 c s h
    by_cases hov : lastAddr + sz < WORD
    · by_cases heq : page = lastAddr + sz
      · subst heq
        rw [fromPagesLoop_cons_step sz lastAddr a0 c rest hov] at h
        rcases ih (lastAddr + sz) a0 (c + 1) s h with ⟨h1, h2, h3, h4⟩
        refine ⟨h1, ?_, ?_, ?_⟩
        · rw [h2, List.length_cons]; omega
        · simp only [List.length_cons, consec]
          rw [← h3]
        · right
          rcases h4 with h4 | h4
          · subst h4; simpa using hov
          · have hmul : (rest.length + 1) * sz = rest.length * sz + sz := by ring
            simp only [List.length_cons]
            omega
      · rw [fromPagesLoop_cons_mismatch sz lastAddr a0 c page rest hov heq] at h
        cases h
    · rw [fromPagesLoop_cons_overflow sz lastAddr a0 c page rest hov] at h
      cases h

/-- A failing scan returns exactly the accepted prefix followed by the
offending page and the untouched tail. -/
theorem fromPagesLoop_error (sz : Nat) :
    ∀ (pages : List Nat) (a0 k : Nat) (e : List Nat),
    a0 % sz = 0 → a0 + k * sz < WORD →
    fromPagesLoop sz (a0 + k * sz) ⟨a0, k + 1⟩ pages = .error e →
    e = consec a0 sz (k + 1) ++ pages := by
  intro pages
  induction pages with
  | nil => intro a0 k e _ _ h; rw [fromPagesLoop] at h; cases h
  | cons page rest ih =>
    intro a0 k e ha hb h
    have htl : SeqPageIter.toList sz ⟨a0, k + 1⟩ = consec a0 sz (k + 1) :=
      toList_eq_consec ⟨a0, k + 1⟩ ha (by simpa using hb)
    have harith : a0 + k * sz + sz = a0 + (k + 1) * sz := by ring
    by_cases hov : a0 + k * sz + sz < WORD
    · by_cases heq : page = a0 + k * sz + sz
      · subst heq
        rw [fromPagesLoop_cons_step sz (a0 + k * sz) a0 (k + 1) rest hov] at h
        rw [harith] at h
        have := ih a0 (k + 1) e ha (by omega) h
        rw [this, consec_succ_append a0 sz (k + 1)]
        simp [harith]
      · rw [fromPagesLoop_cons_mismatch sz (a0 + k * sz) a0 (k + 1) page rest hov heq] at h
        cases h
        simp [htl]
    · rw [fromPagesLoop_cons_overflow sz (a0 + k * sz) a0 (k + 1) page rest hov] at h
      cases h
      simp [htl]

/-- `from_pages` accepts any non-empty consecutive run whose last address
stays below `WORD`. -/
theorem from_pages_consec (sz a n : Nat) (h : a + n * sz < WORD) :
    from_pages sz (consec a sz (n + 1)) = .ok ⟨a, n + 1⟩ := by
  rw [consec, from_pages]
  have hsc := fromPagesLoop_consec_append sz n a a 1 [] h
  rw [List.append_nil] at hsc
  rw [hsc, fromPagesLoop]
  have h1 : 1 + n = n + 1 := by omega
  rw [h1]

/-- C1 (confirmed): every rejected `from_pages` input comes back unchanged
through the error iterator — same pages, same order, nothing duplicated or
dropped.  The input pages are genuine `Page<S>` handles: addresses below
`2 ^ 64` and aligned to `S::SIZE_BYTES`. -/
theorem claim_C1_error_yields_all_pages (sz : Nat) (pages : List Nat)
    (hsz : 0 < sz)
    (halign : ∀ p ∈ pages, p % sz = 0)
    (hbound : ∀ p ∈ pages, p < WORD)
    (e : List Nat) (h : from_pages sz pages = .error e) :
    e = pages := by
  cases pages with
  | nil =>
    rw [from_pages] at h
    cases h
    rfl
  | cons first rest =>
    rw [from_pages] at h
    have hfirst : first % sz = 0 := halign first (List.mem_cons_self first rest)
    have hfb : first < WORD := hbound first (List.mem_cons_self first rest)
    have h0 : fromPagesLoop sz (first + 0 * sz) ⟨first, 0 + 1⟩ rest = .error e := by
      simpa using h
    have := fromPagesLoop_error sz rest first 0 e hfirst (by simpa using hfb) h0
    simpa [consec] using this

/-- C1 witness: the concrete gap scenario S2 — input
`0x1000, 0x2000, 0x4000, 0x5000` is rejected and the error iterator yields
back exactly those 4 pages in order. -/
theorem claim_C1_witness :
    from_pages 4096 [0x1000, 0x2000, 0x4000, 0x5000] =
      .error [0x1000, 0x2000, 0x4000, 0x5000] ∧
    [0x1000, 0x2000, 0x4000, 0x5000] = ([0x1000, 0x2000, 0x4000, 0x5000] : List Nat) := by
  have he : from_pages 4096 [0x1000, 0x2000, 0x4000, 0x5000] =
      .error [0x1000, 0x2000, 0x4000, 0x5000] := by rfl
  exact ⟨he, claim_C1_error_yields_all_pages 4096 [0x1000, 0x2000, 0x4000, 0x5000]
    (by decide) (by decide) (by decide) _ he⟩

/-- C9 (confirmed): `from_pages` on an empty iterator returns `Err`, and the
error iterator (empty range chained with the consumed dummy `Once` iterator
and the exhausted input) yields `None` on its first `next()`: it is the
empty sequence, whose first element is `none`. -/
theorem claim_C9_empty_iterator (sz : Nat) :
    from_pages sz ([] : List Nat) = .error [] ∧
    (([] : List Nat).head? = none) :=
  ⟨rfl, rfl⟩

/-- C8 (confirmed): enumerating a `SequentialPages` produced by `from_pages`
and rebuilding with `from_pages` reproduces it exactly — same base, same
count (such a value is always non-empty).  Input pages are genuine handles:
below `2 ^ 64` and aligned. -/
theorem claim_C8_roundtrip (sz : Nat) (pages : List Nat) (s : SequentialPages)
    (hsz : 0 < sz)
    (halign : ∀ p ∈ pages, p % sz = 0)
    (hbound : ∀ p ∈ pages, p < WORD)
    (h : from_pages sz pages = .ok s) :
    from_pages sz (SeqPageIter.toList sz s) = .ok s ∧ 0 < s.count := by
  cases pages with
  | nil => rw [from_pages] at h; cases h
  | cons first rest =>
    rw [from_pages] at h
    have hfirst : first % sz = 0 := halign first (List.mem_cons_self first rest)
    have hfb : first < WORD := hbound first (List.mem_cons_self first rest)
    rcases fromPagesLoop_ok sz rest first first 1 s h with ⟨h1, h2, _h3, h4⟩
    have hlast : first + rest.length * sz < WORD := by
      rcases h4 with h4 | h4
      · subst h4; simpa using hfb
      · exact h4
    have hcases : s = ⟨first, rest.length + 1⟩ := by
      cases s
      simp only at h1 h2
      subst h1
      simp [h2]
      omega
    subst hcases
    have htl : SeqPageIter.toList sz ⟨first, rest.length + 1⟩ =
        consec first sz (rest.length + 1) :=
      toList_eq_consec ⟨first, rest.length + 1⟩ hfirst (by simpa using hlast)
    rw [htl]
    exact ⟨from_pages_consec sz first rest.length hlast, Nat.succ_pos _⟩

/-- C8 witness: the scenario-S1 range at `0x1000..0x4000` round-trips. -/
theorem claim_C8_witness :
    from_pages 4096 (SeqPageIter.toList 4096 ⟨0x1000, 4⟩) = .ok ⟨0x1000, 4⟩ ∧
    0 < (SequentialPages.mk 0x1000 4).count :=
  claim_C8_roundtrip 4096 [0x1000, 0x2000, 0x3000, 0x4000] ⟨0x1000, 4⟩
    (by decide) (by decide) (by decide) (by rfl)

/-- C6 counterexample: a single page at `2^64 - 4096`.  Its base plus
`count * SIZE_BYTES` equals `2^64`, which does not fit in a u64, yet
`from_pages` returns `Ok`, not `Err`: the constructor only checks the
running `last_addr + SIZE_BYTES` sums between consecutive input pages, and
no such sum is computed after the final page. -/
theorem claim_C6_counterexample :
    from_pages 4096 [0xFFFFFFFFFFFFF000] = .ok ⟨0xFFFFFFFFFFFFF000, 1⟩ ∧
    WORD ≤ 0xFFFFFFFFFFFFF000 + 1 * 4096 :=
  ⟨rfl, by norm_num [WORD]⟩

/-- C6 (corrected): the overflow rejection fires only when the overflow is
observed during the scan — the input starts with a consecutive run whose
last accepted page sits at the top of the address space (so
`last_addr + SIZE_BYTES` overflows u64) and at least one further page
follows.  In that case `from_pages` returns `Err` and the error iterator
preserves every input page in order. -/
theorem claim_C6_overflow_rejected (sz a0 k p : Nat) (rest pages : List Nat)
    (hsz : 0 < sz) (ha : a0 % sz = 0)
    (hlast : a0 + k * sz < WORD)
    (hover : WORD ≤ a0 + k * sz + sz)
    (hpages : pages = consec a0 sz (k + 1) ++ p :: rest) :
    from_pages sz pages = .error pages := by
  subst hpages
  rw [consec, List.cons_append, from_pages]
  have hsc := fromPagesLoop_consec_append sz k a0 a0 1 (p :: rest) hlast
  rw [hsc, fromPagesLoop_cons_overflow sz (a0 + k * sz) a0 (1 + k) p rest (by omega)]
  have htl : SeqPageIter.toList sz ⟨a0, 1 + k⟩ = consec a0 sz (1 + k) := by
    refine toList_eq_consec ⟨a0, 1 + k⟩ ha ?_
    show a0 + (1 + k - 1) * sz < WORD
    have h1k : 1 + k - 1 = k := by omega
    rw [h1k]
    exact hlast
  rw [htl]
  have h1 : 1 + k = k + 1 := by omega
  rw [h1, consec]
  simp

/-- C6 witness: two pages, the first at the top page of the address space;
the scan's `checked_add` overflows at the second page and the error yields
both pages back. -/
theorem claim_C6_witness :
    from_pages 4096 [0xFFFFFFFFFFFFF000, 0] =
      .error [0xFFFFFFFFFFFFF000, 0] :=
  claim_C6_overflow_rejected 4096 0xFFFFFFFFFFFFF000 0 0 [] _
    (by decide) (by decide) (by norm_num [WORD]) (by norm_num [WORD]) (by rfl)

/-- C7 (code bug): a `SequentialPages` produced by `from_pages` for which
`count * SIZE_BYTES` overflows u64, contradicting the source comment in
`length_bytes` ("Guaranteed not to overflow by the constructor"): the
`2^52` consecutive 4-KiB pages covering the whole address space are
accepted by `from_pages`, and `count * SIZE_BYTES = 2^64` wraps to 0. -/
theorem claim_C7_length_bytes_overflows :
    from_pages 4096 (consec 0 4096 (2 ^ 52)) = .ok ⟨0, 2 ^ 52⟩ ∧
    length_bytes 4096 ⟨0, 2 ^ 52⟩ = 0 ∧
    WORD ≤ (SequentialPages.mk 0 (2 ^ 52)).count * 4096 := by
  refine ⟨?_, ?_, ?_⟩
  · have hn : 2 ^ 52 - 1 + 1 = 2 ^ 52 := by norm_num
    have h := from_pages_consec 4096 0 (2 ^ 52 - 1) (by norm_num [WORD])
    rw [hn] at h
    exact h
  · norm_num [length_bytes, WORD]
  · norm_num [WORD]

end SeqP

namespace VmM

/-- `PageSize4k::SIZE_BYTES`. -/
def SZ4K : Nat := 4096

/-- Modelled from the spec: `T::TOP_LEVEL_ALIGN` of the realized sv48x4
platform page table — 16 KiB, four 4-KiB root frames (spec sections 3 and
4.3; the `PlatformPageTable` implementation is outside the two source
files). -/
def TOP_LEVEL_ALIGN : Nat := 16384

/-- Modelled from the spec (section 4.2): the physical page directory
`PhysPages` / `PageState`.  `owners a` is the owner stack of the frame at
physical address `a`, head = top of stack, bottom = hypervisor; the stacks
are bounded by `maxOwners` and the active-guest set by `maxGuests`; fresh
ids are handed out in sequence from `nextId`.  All Rust handles obtained by
`clone()` alias one state, so the embedding threads a single value. -/
structure PhysPages where
  owners : Nat → List Nat
  active : List Nat
  nextId : Nat
  maxOwners : Nat
  maxGuests : Nat

/-- Modelled from the spec: `PhysPages::add_active_guest` allocates a fresh
`PageOwnerId`, failing when the active-guest table is exhausted. -/
def PhysPages.add_active_guest (pp : PhysPages) : Except Unit (Nat × PhysPages) :=
  if pp.active.length < pp.maxGuests then
    .ok (pp.nextId,
      { pp with active := pp.nextId :: pp.active, nextId := pp.nextId + 1 })
  else .error ()

/-- Pushing `id` onto the owner stack of the frame at `a`, leaving every
other stack alone. -/
def pushOwner (pp : PhysPages) (id a : Nat) : PhysPages :=
  { pp with owners := fun x => if x = a then id :: pp.owners a else pp.owners x }

/-- Modelled from the spec: `PhysPages::set_page_owner` pushes `id` onto the
owner stack of the frame at `addr`, failing when the bounded stack is full
(the invalid-address failure for frames outside RAM is not represented:
every address the claims touch is a RAM frame). -/
def PhysPages.set_page_owner (pp : PhysPages) (addr id : Nat) :
    Except Unit PhysPages :=
  if (pp.owners addr).length < pp.maxOwners then .ok (pushOwner pp id addr)
  else .error ()

theorem pushOwner_owners (pp : PhysPages) (id a x : Nat) :
    (pushOwner pp id a).owners x =
      if x = a then id :: pp.owners a else pp.owners x := rfl

/-- Modelled from the spec: `PhysPages::pop_owner` pops and returns the top
owner of the frame at `addr`; the bottom (hypervisor) entry cannot be
popped, and an empty or bottom-only stack is an error. -/
def PhysPages.pop_owner (pp : PhysPages) (addr : Nat) :
    Except Unit (Nat × PhysPages) :=
  match pp.owners addr with
  | top :: below :: rest =>
    .ok (top, { pp with owners := fun a => if a = addr then below :: rest else pp.owners a })
  | _ => .error ()

/-- Modelled from the spec (sections 3, 4.3): one second-stage page-table
entry — the mapped frame's host-physical address, its size tag (the
`UnmappedPage` size; 4096 for 4-KiB leaves) and a valid bit cleared by
`invalidate_range`. -/
structure PTE where
  hpa : Nat
  szBytes : Nat
  valid : Bool
deriving DecidableEq

/-- Modelled from the spec: the `PlatformPageTable` for one owner — its
owner id, the `SequentialPages` root handed to `T::new`, and the
GPA-indexed entries.  The `PhysPages` handle the Rust value carries is
threaded separately through the operations. -/
structure Table where
  ownerId : Nat
  rootSeq : SeqP.SequentialPages
  entries : Nat → Option PTE

/-- Modelled from the spec (section 4.3): `T::new(root_pages, owner, phys)`
requires exactly the platform's 4 root frames aligned to
`TOP_LEVEL_ALIGN`, failing with `BadRoot` otherwise; the fresh table maps
nothing. -/
def Table.new (root : SeqP.SequentialPages) (id : Nat) : Except Unit Table :=
  if root.count = 4 ∧ root.addr % TOP_LEVEL_ALIGN = 0 then
    .ok { ownerId := id, rootSeq := root, entries := fun _ => none }
  else .error ()

/-- The 4-KiB-stepped GPAs of a range. -/
def gpas (fromA count : Nat) : List Nat :=
  (List.range count).map fun i => fromA + i * SZ4K

/-- Modelled from the spec (section 4.3): the guard shared by
`invalidate_range` and `unmap_range` — the base GPA must be
`TOP_LEVEL_ALIGN`-aligned and the range must not overflow the address
space. -/
def rangeOk (fromA count : Nat) : Prop :=
  fromA % TOP_LEVEL_ALIGN = 0 ∧ fromA + count * SZ4K ≤ SeqP.WORD

instance (fromA count : Nat) : Decidable (rangeOk fromA count) := by
  unfold rangeOk; infer_instance

/-- Modelled from the spec: the pages the lazy `invalidate_range` iterator
walks over — each mapped (valid) entry of the range in ascending GPA order,
holes skipped silently. -/
def Table.invYields (t : Table) (fromA count : Nat) : List (Nat × PTE) :=
  (gpas fromA count).filterMap fun g =>
    match t.entries g with
    | some e => if e.valid then some (g, e) else none
    | none => none

/-- Modelled from the spec: the pages the lazy `unmap_range` iterator walks
over.  Unlike `invalidate_range` it also yields entries previously
invalidated but still holding their frame — scenario S6 (reclaiming pages
that were invalidated and donated to a child) requires reclaim to reach
them. -/
def Table.unmapYields (t : Table) (fromA count : Nat) : List (Nat × PTE) :=
  (gpas fromA count).filterMap fun g => (t.entries g).map fun e => (g, e)

/-- Clearing the valid bit of one entry, as the `invalidate_range` iterator
does when it yields that entry. -/
def Table.invalidateAt (t : Table) (g : Nat) : Table :=
  { t with entries := fun a =>
      if a = g then (t.entries g).map (fun e => { e with valid := false })
      else t.entries a }

/-- Removing one entry, as the `unmap_range` iterator does when it yields
that entry. -/
def Table.removeAt (t : Table) (g : Nat) : Table :=
  { t with entries := fun a => if a = g then none else t.entries a }

/-- Modelled from the spec (section 4.3): `T::map_page_4k` installs a 4-KiB
leaf for `gpa`, failing on an unaligned GPA or an already-valid entry.  The
platform-specific interior-node walk and its on-demand `pte_supplier`
consumption are abstracted away (no claim below depends on how many PTE
pages a walk consumes); re-mapping an invalidated slot succeeds, per the
spec's invalidate-then-remap round-trip law. -/
def Table.map_page_4k (t : Table) (gpa hpa : Nat) : Except Unit Table :=
  if gpa % SZ4K ≠ 0 then .error ()
  else
    match t.entries gpa with
    | some e =>
      if e.valid then .error ()
      else .ok { t with entries := fun a =>
        if a = gpa then some ⟨hpa, SZ4K, true⟩ else t.entries a }
    | none => .ok { t with entries := fun a =>
        if a = gpa then some ⟨hpa, SZ4K, true⟩ else t.entries a }

/-- Embedding of `vm_pages::Error` (vm_pages.rs lines 15-27), plus `Panic`
for the aborts of the `unwrap`/`assert!` calls the source performs on the
paths it considers infallible. -/
inductive Error
  | GuestId
  | InvalidRange
  | InsufficientPtePageStorage
  | Mapping4kPage
  | Non4kPteEntry
  | PageFaultHandling
  | SettingOwner
  | UnalignedVmPages (addr : Nat)
  | UnownedPage (addr : Nat)
  | Panic
deriving DecidableEq

/-- Embedding of `VmPages<T, D>` (lines 38-41): the root table and the
measurement.  The measurement type `D` is modelled from the spec (section
6) as the free accumulator of the `(gpa, page)` pairs passed to
`DataMeasure::add_page`, in call order — `D::default()` is `[]` and
`add_page` appends. -/
structure VmPages where
  root : Table
  measurement : List (Nat × Nat)

/-- Embedding of `VmPages::get_measurement` (lines 49-51). -/
def VmPages.get_measurement (vm : VmPages) : List (Nat × Nat) :=
  vm.measurement

/-- Embedding of `VmPages::page_owner_id` (lines 45-47). -/
def VmPages.page_owner_id (vm : VmPages) : Nat :=
  vm.root.ownerId

/-- Modelled from the spec (sections 6, 9): `PageVec<Page4k>` — a vector of
page handles whose backing storage is itself a single 4-KiB page, so its
capacity is the 512 eight-byte handles that page holds.  `try_reserve`
fails once the backing page is full. -/
structure PageVec where
  elems : List Nat
  cap : Nat
deriving DecidableEq

/-- Capacity of a `PageVec` backed by one 4-KiB page. -/
def pageVecCap : Nat := 512

/-- Embedding of `GuestRootBuilder<T, D>` (vm_pages.rs lines 296-300). -/
structure GuestRootBuilder where
  root : Table
  measurement : List (Nat × Nat)
  pte_pages : PageVec

/-- Embedding of `GuestRootBuilder::new` (lines 312-318): fresh `D` and a
PTE pool backed by `pte_page`. -/
def GuestRootBuilder.new (root : Table) (pte_page : Nat) : GuestRootBuilder :=
  { root := root, measurement := [], pte_pages := ⟨[pte_page], pageVecCap⟩ }

/-- Embedding of `GuestRootBuilder::page_owner_id` (lines 304-306). -/
def GuestRootBuilder.page_owner_id (b : GuestRootBuilder) : Nat :=
  b.root.ownerId

/-- Embedding of `GuestRootBuilder::add_pte_page` (lines 322-328): reserve
one slot (failing with `InsufficientPtePageStorage`) then push.  The `&mut
self` receiver is returned alongside the result in every case. -/
def GuestRootBuilder.add_pte_page (b : GuestRootBuilder) (page : Nat) :
    Except Error Unit × GuestRootBuilder :=
  if b.pte_pages.elems.length + 1 ≤ b.pte_pages.cap then
    (.ok (), { b with pte_pages := ⟨b.pte_pages.elems ++ [page], b.pte_pages.cap⟩ })
  else (.error .InsufficientPtePageStorage, b)

/-- Embedding of `GuestRootBuilder::add_data_page` (lines 332-337): the
measurement absorbs `(gpa, page)` first, then the mapping is attempted; a
mapping failure is reported as `Mapping4kPage` but the measurement update
stays. -/
def GuestRootBuilder.add_data_page (b : GuestRootBuilder) (gpa page : Nat) :
    Except Error Unit × GuestRootBuilder :=
  let b1 := { b with measurement := b.measurement ++ [(gpa, page)] }
  match b1.root.map_page_4k gpa page with
  | .ok t => (.ok (), { b1 with root := t })
  | .error _ => (.error .Mapping4kPage, b1)

/-- Embedding of `GuestRootBuilder::add_zero_page` (lines 341-345): map
without measuring. -/
def GuestRootBuilder.add_zero_page (b : GuestRootBuilder) (gpa page : Nat) :
    Except Error Unit × GuestRootBuilder :=
  match b.root.map_page_4k gpa page with
  | .ok t => (.ok (), { b with root := t })
  | .error _ => (.error .Mapping4kPage, b)

/-- Embedding of `GuestRootBuilder::create_pages` (lines 348-353). -/
def GuestRootBuilder.create_pages (b : GuestRootBuilder) : VmPages :=
  { root := b.root, measurement := b.measurement }

/-- One call of a `GuestRootBuilder` construction sequence. -/
inductive GuestCall
  | dataPage (gpa page : Nat)
  | zeroPage (gpa page : Nat)
  | ptePage (page : Nat)

/-- Performing one call on the builder (through `&mut self`, the builder
survives whether or not the call returns an error). -/
def runCall (b : GuestRootBuilder) : GuestCall → GuestRootBuilder
  | .dataPage gpa page => (b.add_data_page gpa page).2
  | .zeroPage gpa page => (b.add_zero_page gpa page).2
  | .ptePage page => (b.add_pte_page page).2

/-- Performing a whole construction sequence in call order. -/
def runCalls (b : GuestRootBuilder) (cs : List GuestCall) : GuestRootBuilder :=
  cs.foldl runCall b

/-- The fold of `D::add_page(gpa_i, page_i)` over the `add_data_page`
subsequence of a construction sequence, in call order. -/
def measuredOf (cs : List GuestCall) : List (Nat × Nat) :=
  cs.filterMap fun c =>
    match c with
    | .dataPage gpa page => some (gpa, page)
    | _ => none

/-- Outcome of pulling one element from the lazy pipeline built on
`invalidate_range` in `create_guest_root_builder` (vm_pages.rs lines
65-74): either the iterator is exhausted, or the walk invalidates the next
entry and the chained `map` closures run `UnmappedPage::unwrap_4k` (a panic
on a non-4-KiB page) and `set_page_owner(..).unwrap()` (a panic on
failure) on it, or one of those panics fires. -/
inductive StepRes
  | yielded (hpa : Nat) (t : Table) (pp : PhysPages) (rest : List (Nat × PTE))
  | exhausted
  | panicked (t : Table) (pp : PhysPages)

/-- One `next()` on the claimed-page pipeline of
`create_guest_root_builder`. -/
def claimNext (t : Table) (pp : PhysPages) (id : Nat) :
    List (Nat × PTE) → StepRes
  | [] => .exhausted
  | (g, e) :: rest =>
    if e.szBytes ≠ SZ4K then .panicked (t.invalidateAt g) pp
    else
      match pp.set_page_owner e.hpa id with
      | .error _ => .panicked (t.invalidateAt g) pp
      | .ok pp' => .yielded e.hpa (t.invalidateAt g) pp' rest

/-- The tail of `create_guest_root_builder` (vm_pages.rs lines 77-82),
driven by the lazy pipeline: `SequentialPages::from_pages` consumes
`take(4)` — checking consecutiveness as it pulls, so a failure stops the
pulls — then `T::new`, then two further `next()` calls for the initial PTE
page and the state page; every failure on this path is behind an `unwrap`
and therefore a panic. -/
def buildGuest (t : Table) (pp : PhysPages) (id : Nat) (ys : List (Nat × PTE)) :
    Except Error (GuestRootBuilder × Nat) × Table × PhysPages :=
  match claimNext t pp id ys with
  | .exhausted => (.error .Panic, t, pp)
  | .panicked t1 pp1 => (.error .Panic, t1, pp1)
  | .yielded a1 t1 pp1 ys1 =>
    match claimNext t1 pp1 id ys1 with
    | .exhausted => (.error .Panic, t1, pp1)
    | .panicked t2 pp2 => (.error .Panic, t2, pp2)
    | .yielded a2 t2 pp2 ys2 =>
      if a1 + SZ4K < SeqP.WORD ∧ a2 = a1 + SZ4K then
        match claimNext t2 pp2 id ys2 with
        | .exhausted => (.error .Panic, t2, pp2)
        | .panicked t3 pp3 => (.error .Panic, t3, pp3)
        | .yielded a3 t3 pp3 ys3 =>
          if a2 + SZ4K < SeqP.WORD ∧ a3 = a2 + SZ4K then
            match claimNext t3 pp3 id ys3 with
            | .exhausted => (.error .Panic, t3, pp3)
            | .panicked t4 pp4 => (.error .Panic, t4, pp4)
            | .yielded a4 t4 pp4 ys4 =>
              if a3 + SZ4K < SeqP.WORD ∧ a4 = a3 + SZ4K then
                match Table.new ⟨a1, 4⟩ id with
                | .error _ => (.error .Panic, t4, pp4)
                | .ok newRoot =>
                  match claimNext t4 pp4 id ys4 with
                  | .exhausted => (.error .Panic, t4, pp4)
                  | .panicked t5 pp5 => (.error .Panic, t5, pp5)
                  | .yielded a5 t5 pp5 ys5 =>
                    match claimNext t5 pp5 id ys5 with
                    | .exhausted => (.error .Panic, t5, pp5)
                    | .panicked t6 pp6 => (.error .Panic, t6, pp6)
                    | .yielded a6 t6 pp6 _ =>
                      (.ok (GuestRootBuilder.new newRoot a5, a6), t6, pp6)
              else (.error .Panic, t4, pp4)
          else (.error .Panic, t3, pp3)
      else (.error .Panic, t2, pp2)

/-- Embedding of `VmPages::create_guest_root_builder` (vm_pages.rs lines
55-83).  The alignment test on line 59, phrased in the source as a raw
pointer `align_offset(16 * 1024)`, is the 16-KiB alignment check of the
(4-KiB-aligned) `from_addr`.  Then a fresh guest id is allocated,
`invalidate_range(from_addr, 6)` arms the pipeline (`InvalidRange` if it
returns `None`), and `buildGuest` consumes it.  Errors carry the state
reached so far (for a `Panic` the Rust program aborts, so that state is
unobservable there). -/
def create_guest_root_builder (t : Table) (pp : PhysPages) (fromA : Nat) :
    Except Error (GuestRootBuilder × Nat) × Table × PhysPages :=
  if fromA % TOP_LEVEL_ALIGN ≠ 0 then (.error (.UnalignedVmPages fromA), t, pp)
  else
    match pp.add_active_guest with
    | .error _ => (.error .GuestId, t, pp)
    | .ok (id, pp1) =>
      if rangeOk fromA 6 then buildGuest t pp1 id (t.invYields fromA 6)
      else (.error .InvalidRange, t, pp1)

/-- The loop of `VmPages::remove_4k_pages` (vm_pages.rs lines 147-156) over
the lazy `unmap_range` pipeline: each pulled entry is removed from the
table, zeroed (`CleanPage::from`, contents are not modelled), checked to be
4 KiB (`ok4k_or(Non4kPteEntry)`), popped from its owner stack (failure or a
popped owner other than the caller is `UnownedPage`). -/
def removeLoop (owner_id count : Nat) :
    List (Nat × PTE) → Table → PhysPages →
    Except Error Nat × Table × PhysPages
  | [], t, pp => (.ok count, t, pp)
  | (g, e) :: rest, t, pp =>
    if e.szBytes ≠ SZ4K then (.error .Non4kPteEntry, t.removeAt g, pp)
    else
      match pp.pop_owner e.hpa with
      | .error _ => (.error (.UnownedPage e.hpa), t.removeAt g, pp)
      | .ok (owner, pp') =>
        if owner ≠ owner_id then (.error (.UnownedPage e.hpa), t.removeAt g, pp')
        else removeLoop owner_id count rest (t.removeAt g) pp'

/-- Embedding of `VmPages::remove_4k_pages` (vm_pages.rs lines 139-158). -/
def remove_4k_pages (t : Table) (pp : PhysPages) (fromA count : Nat) :
    Except Error Nat × Table × PhysPages :=
  if rangeOk fromA count then
    removeLoop t.ownerId count (t.unmapYields fromA count) t pp
  else (.error .InvalidRange, t, pp)

/-- Embedding of `HostRootBuilder<T, D>` (vm_pages.rs lines 198-202); the
`PageRange` PTE reservoir is the list of its remaining pages. -/
structure HostRootBuilder where
  root : Table
  pte_pages : List Nat
  measurement : List (Nat × Nat)

/-- The `pages.zip(to_addr.iter_from())` pairing of lines 237 and 265:
each page with its target GPA `to_addr + i * 4096`. -/
def hostZip (pages : List Nat) (toAddr : Nat) : List (Nat × Nat) :=
  pages.zip ((List.range pages.length).map fun i => toAddr + i * SZ4K)

/-- The loop of `HostRootBuilder::add_4k_data_pages` (lines 237-248): for
each `(page, vm_addr)` measure first, then `assert!` the
`TOP_LEVEL_ALIGN` low bits agree, `set_page_owner(..).unwrap()` and
`map_page_4k(..).unwrap()` — the latter three abort (Panic) on failure. -/
def hostDataLoop (ptePages : List Nat) (m : List (Nat × Nat))
    (t : Table) (pp : PhysPages) :
    List (Nat × Nat) → Except Error HostRootBuilder × PhysPages
  | [] => (.ok ⟨t, ptePages, m⟩, pp)
  | (page, vmAddr) :: rest =>
    if vmAddr % TOP_LEVEL_ALIGN ≠ page % TOP_LEVEL_ALIGN then (.error .Panic, pp)
    else
      match pp.set_page_owner page t.ownerId with
      | .error _ => (.error .Panic, pp)
      | .ok pp' =>
        match t.map_page_4k vmAddr page with
        | .error _ => (.error .Panic, pp')
        | .ok t' => hostDataLoop ptePages (m ++ [(vmAddr, page)]) t' pp' rest

/-- Embedding of `HostRootBuilder::add_4k_data_pages` (lines 230-255): the
loop starts from `let mut measurement = D::default()` — the builder's
existing measurement is not carried over. -/
def HostRootBuilder.add_4k_data_pages (b : HostRootBuilder) (pp : PhysPages)
    (toAddr : Nat) (pages : List Nat) :
    Except Error HostRootBuilder × PhysPages :=
  hostDataLoop b.pte_pages [] b.root pp (hostZip pages toAddr)

/-- The loop of `HostRootBuilder::add_4k_pages` (lines 265-275): identical
to the data loop but with no measuring; `meas` is the builder's existing
measurement, returned untouched. -/
def hostZeroLoop (ptePages : List Nat) (meas : List (Nat × Nat))
    (t : Table) (pp : PhysPages) :
    List (Nat × Nat) → Except Error HostRootBuilder × PhysPages
  | [] => (.ok ⟨t, ptePages, meas⟩, pp)
  | (page, vmAddr) :: rest =>
    if vmAddr % TOP_LEVEL_ALIGN ≠ page % TOP_LEVEL_ALIGN then (.error .Panic, pp)
    else
      match pp.set_page_owner page t.ownerId with
      | .error _ => (.error .Panic, pp)
      | .ok pp' =>
        match t.map_page_4k vmAddr page with
        | .error _ => (.error .Panic, pp')
        | .ok t' => hostZeroLoop ptePages meas t' pp' rest

/-- Embedding of `HostRootBuilder::add_4k_pages` (lines 258-282): `let
measurement = self.measurement` is preserved. -/
def HostRootBuilder.add_4k_pages (b : HostRootBuilder) (pp : PhysPages)
    (toAddr : Nat) (pages : List Nat) :
    Except Error HostRootBuilder × PhysPages :=
  hostZeroLoop b.pte_pages b.measurement b.root pp (hostZip pages toAddr)

/-- Embedding of `HostRootPages` (vm_pages.rs lines 184-192). -/
structure HostRootPages where
  inner : VmPages

/-- Embedding of `HostRootPages::into_inner` (lines 189-191). -/
def HostRootPages.into_inner (h : HostRootPages) : VmPages := h.inner

/-- Embedding of `HostRootBuilder::create_host` (lines 285-292). -/
def HostRootBuilder.create_host (b : HostRootBuilder) : HostRootPages :=
  ⟨{ root := b.root, measurement := b.measurement }⟩

/-- Concrete state used for the C3 counterexample: a table whose single
mapped entry in the 6-slot window at GPA 0 is a valid 2-MiB page. -/
def guestNon4kTable : Table :=
  ⟨1, ⟨0x8000, 4⟩, fun g => if g = 0 then some ⟨0x10000, 0x200000, true⟩ else none⟩

/-- Directory for the C3 counterexample: room for ids and owners. -/
def guestNon4kPP : PhysPages := ⟨fun _ => [0], [], 7, 8, 4⟩

/-- Concrete table for the C3 witness: six valid 4-KiB entries at GPAs
`0x0..0x5000`; the first four physical pages `0x20000..0x23000` consecutive
and 16-KiB aligned, then `0x30000` and `0x31000`. -/
def guestOkTable : Table :=
  ⟨1, ⟨0x8000, 4⟩, fun g =>
    if g = 0 then some ⟨0x20000, SZ4K, true⟩
    else if g = 0x1000 then some ⟨0x21000, SZ4K, true⟩
    else if g = 0x2000 then some ⟨0x22000, SZ4K, true⟩
    else if g = 0x3000 then some ⟨0x23000, SZ4K, true⟩
    else if g = 0x4000 then some ⟨0x30000, SZ4K, true⟩
    else if g = 0x5000 then some ⟨0x31000, SZ4K, true⟩
    else none⟩

/-- Directory for the C3 witness: every frame owned by the host (1) on top
of the hypervisor (0); next fresh id 5. -/
def guestOkPP : PhysPages := ⟨fun _ => [1, 0], [1], 5, 8, 4⟩

/-- Concrete table for the C4 witness: two 4-KiB entries (the second
already invalidated, as after a donation) at GPAs `0x4000` and `0x5000`. -/
def removeTestTable : Table :=
  ⟨3, ⟨0x8000, 4⟩, fun g =>
    if g = 0x4000 then some ⟨0xA000, SZ4K, true⟩
    else if g = 0x5000 then some ⟨0xB000, SZ4K, false⟩
    else none⟩

/-- Directory for the C4 witness: both frames owned by 3 on top of the
host (1). -/
def removeTestPP : PhysPages :=
  ⟨fun a => if a = 0xA000 then [3, 1] else if a = 0xB000 then [3, 1] else [0],
    [3], 4, 8, 4⟩

theorem add_data_page_measurement (b : GuestRootBuilder) (gpa page : Nat) :
    ((b.add_data_page gpa page).2).measurement = b.measurement ++ [(gpa, page)] := by
  rcases h : Table.map_page_4k b.root gpa page with _ | t <;>
    simp [GuestRootBuilder.add_data_page, h]

theorem add_zero_page_measurement (b : GuestRootBuilder) (gpa page : Nat) :
    ((b.add_zero_page gpa page).2).measurement = b.measurement := by
  rcases h : Table.map_page_4k b.root gpa page with _ | t <;>
    simp [GuestRootBuilder.add_zero_page, h]

theorem add_pte_page_measurement (b : GuestRootBuilder) (page : Nat) :
    ((b.add_pte_page page).2).measurement = b.measurement := by
  by_cases h : b.pte_pages.elems.length + 1 ≤ b.pte_pages.cap <;>
    simp [GuestRootBuilder.add_pte_page, h]

theorem runCall_measurement (b : GuestRootBuilder) (c : GuestCall) :
    (runCall b c).measurement =
      b.measurement ++ measuredOf [c] := by
  cases c with
  | dataPage gpa page => simp [runCall, measuredOf, add_data_page_measurement]
  | zeroPage gpa page => simp [runCall, measuredOf, add_zero_page_measurement]
  | ptePage page => simp [runCall, measuredOf, add_pte_page_measurement]

theorem runCalls_measurement :
    ∀ (cs : List GuestCall) (b : GuestRootBuilder),
    (runCalls b cs).measurement = b.measurement ++ measuredOf cs := by
  intro cs
  induction cs with
  | nil => intro b; simp [runCalls, measuredOf]
  | cons c cs ih =>
    intro b
    have hstep : runCalls b (c :: cs) = runCalls (runCall b c) cs := rfl
    rw [hstep, ih (runCall b c), runCall_measurement]
    cases c <;> simp [measuredOf]

/-- C2 (confirmed): over any `GuestRootBuilder` construction sequence, the
measurement of the `VmPages` produced by `create_pages` is exactly the fold
of `D::add_page(gpa_i, page_i)` over the `add_data_page` subsequence in
call order; `add_data_page` feeds the measurement before attempting the
mapping (the measurement grows even when the mapping fails), and
`add_zero_page` never touches the measurement. -/
theorem claim_C2_measurement_is_data_page_fold
    (root : Table) (pte_page : Nat) (cs : List GuestCall)
    (b : GuestRootBuilder) (gpa page : Nat) :
    ((runCalls (GuestRootBuilder.new root pte_page) cs).create_pages.get_measurement
        = measuredOf cs) ∧
    ((b.add_data_page gpa page).2.measurement = b.measurement ++ [(gpa, page)]) ∧
    ((b.add_zero_page gpa page).2.measurement = b.measurement) := by
  refine ⟨?_, add_data_page_measurement b gpa page, add_zero_page_measurement b gpa page⟩
  show (runCalls (GuestRootBuilder.new root pte_page) cs).measurement = measuredOf cs
  rw [runCalls_measurement]
  simp [GuestRootBuilder.new]

theorem pop_owner_ok (pp : PhysPages) (addr top : Nat) (pp' : PhysPages)
    (h : pp.pop_owner addr = .ok (top, pp')) :
    (pp.owners addr).head? = some top ∧
    pp'.owners addr = (pp.owners addr).tail ∧
    (pp.owners addr).tail ≠ [] ∧
    (∀ a, a ≠ addr → pp'.owners a = pp.owners a) := by
  unfold PhysPages.pop_owner at h
  rcases hm : pp.owners addr with _ | ⟨t1, rest1⟩
  · rw [hm] at h; cases h
  · rcases rest1 with _ | ⟨b1, r1⟩
    · rw [hm] at h; cases h
    · rw [hm] at h
      simp only [Except.ok.injEq, Prod.mk.injEq] at h
      rcases h with ⟨h1, h2⟩
      subst h1
      subst h2
      refine ⟨by simp [hm], by simp [hm], by simp [hm], ?_⟩
      intro a ha
      simp [ha]

theorem removeLoop_ok_pops :
    ∀ (ys : List (Nat × PTE)) (owner_id count : Nat) (t : Table) (pp : PhysPages),
    ((ys.map fun y => y.2.hpa).Nodup) →
    (removeLoop owner_id count ys t pp).1 = .ok count →
    (∀ y ∈ ys,
      (pp.owners y.2.hpa).head? = some owner_id ∧
      (pp.owners y.2.hpa).tail ≠ [] ∧
      ((removeLoop owner_id count ys t pp).2.2).owners y.2.hpa =
        (pp.owners y.2.hpa).tail) ∧
    (∀ a, a ∉ (ys.map fun y => y.2.hpa) →
      ((removeLoop owner_id count ys t pp).2.2).owners a = pp.owners a) := by
  intro ys
  induction ys with
  | nil =>
    intro owner_id count t pp _ _
    exact ⟨by simp, fun a _ => rfl⟩
  | cons y rest ih =>
    intro owner_id count t pp hnd hok
    rcases y with ⟨g, e⟩
    simp only [List.map_cons, List.nodup_cons] at hnd
    rcases hnd with ⟨hnotin, hnd'⟩
    by_cases hsz : e.szBytes ≠ SZ4K
    · rw [removeLoop, if_pos hsz] at hok
      cases hok
    · rcases hpop : pp.pop_owner e.hpa with u | ⟨owner, pp1⟩
      · rw [removeLoop, if_neg hsz, hpop] at hok
        cases hok
      · by_cases hown : owner ≠ owner_id
        · rw [removeLoop, if_neg hsz, hpop] at hok
          simp only [if_pos hown] at hok
          cases hok
        · have hredP : removeLoop owner_id count ((g, e) :: rest) t pp =
              removeLoop owner_id count rest (t.removeAt g) pp1 := by
            rw [removeLoop, if_neg hsz, hpop]
            simp [if_neg hown]
          rw [hredP] at hok ⊢
          have howner : owner = owner_id := not_not.mp (by simpa using hown)
          subst howner
          rcases pop_owner_ok pp e.hpa owner pp1 hpop with ⟨hhd, heq, htl, hout⟩
          rcases ih owner count (t.removeAt g) pp1 hnd' hok with ⟨ihmem, ihout⟩
          refine ⟨?_, ?_⟩
          · intro z hz
            rcases List.mem_cons.mp hz with hz | hz
            · subst hz
              refine ⟨hhd, htl, ?_⟩
              rw [ihout e.hpa hnotin, heq]
            · have hne : z.2.hpa ≠ e.hpa := by
                intro hcontra
                exact hnotin (hcontra ▸ List.mem_map_of_mem (fun y => y.2.hpa) hz)
              rcases ihmem z hz with ⟨ih1, ih2, ih3⟩
              rw [hout z.2.hpa hne] at ih1 ih2 ih3
              exact ⟨ih1, ih2, ih3⟩
          · intro a ha
            simp only [List.map_cons, List.mem_cons, not_or] at ha
            rcases ha with ⟨ha1, ha2⟩
            rw [ihout a (by simpa using ha2), hout a ha1]

theorem removeLoop_first_unowned :
    ∀ (good : List (Nat × PTE)) (gb : Nat) (eb : PTE) (rest : List (Nat × PTE))
      (owner_id count : Nat) (t : Table) (pp : PhysPages),
    (∀ y ∈ good, y.2.szBytes = SZ4K ∧
      (pp.owners y.2.hpa).head? = some owner_id ∧ (pp.owners y.2.hpa).tail ≠ []) →
    ((good.map fun y => y.2.hpa).Nodup) →
    (eb.hpa ∉ good.map fun y => y.2.hpa) →
    eb.szBytes = SZ4K →
    (pp.owners eb.hpa).head? ≠ some owner_id →
    pp.owners eb.hpa ≠ [] →
    (removeLoop owner_id count (good ++ (gb, eb) :: rest) t pp).1 =
      .error (.UnownedPage eb.hpa) := by
  intro good
  induction good with
  | nil =>
    intro gb eb rest owner_id count t pp _ _ _ hsz hbad hne
    rw [List.nil_append, removeLoop, if_neg (by simp [hsz])]
    rcases hm : pp.owners eb.hpa with _ | ⟨top, rest1⟩
    · exact absurd hm hne
    · rcases rest1 with _ | ⟨b1, r1⟩
      · have : pp.pop_owner eb.hpa = .error () := by
          unfold PhysPages.pop_owner
          rw [hm]
        rw [this]
      · have : pp.pop_owner eb.hpa =
            .ok (top, { pp with owners := fun a =>
              if a = eb.hpa then b1 :: r1 else pp.owners a }) := by
          unfold PhysPages.pop_owner
          rw [hm]
        rw [this]
        have htop : top ≠ owner_id := by
          intro hcontra
          apply hbad
          simp [hm, hcontra]
        simp [if_pos htop]
  | cons y good' ih =>
    intro gb eb rest owner_id count t pp hgood hnd hnotin hsz hbad hne
    rcases y with ⟨g, e⟩
    rcases hgood (g, e) (List.mem_cons_self _ _) with ⟨hsz1, hhd1, htl1⟩
    simp only [List.map_cons, List.nodup_cons] at hnd
    rcases hnd with ⟨hnotin1, hnd'⟩
    simp only [List.map_cons, List.mem_cons, not_or] at hnotin
    rcases hnotin with ⟨hbne, hnotin'⟩
    rcases hm : pp.owners e.hpa with _ | ⟨top, rest1⟩
    · rw [hm] at hhd1; cases hhd1
    · rcases rest1 with _ | ⟨b1, r1⟩
      · rw [hm] at htl1; simp at htl1
      · have htop : top = owner_id := by
          rw [hm] at hhd1
          simpa using hhd1
        subst htop
        have hpop : pp.pop_owner e.hpa =
            .ok (top, { pp with owners := fun a =>
              if a = e.hpa then b1 :: r1 else pp.owners a }) := by
          unfold PhysPages.pop_owner
          rw [hm]
        have hstep : removeLoop top count (((g, e) :: good') ++ (gb, eb) :: rest) t pp =
            removeLoop top count (good' ++ (gb, eb) :: rest) (t.removeAt g)
              { pp with owners := fun a =>
                if a = e.hpa then b1 :: r1 else pp.owners a } := by
          rw [List.cons_append, removeLoop, if_neg (by simpa using hsz1), hpop]
          simp
        rw [hstep]
        refine ih gb eb rest top count (t.removeAt g) _ ?_ hnd' hnotin' hsz ?_ ?_
        · intro z hz
          rcases hgood z (List.mem_cons_of_mem _ hz) with ⟨hz1, hz2, hz3⟩
          have hzne : z.2.hpa ≠ e.hpa := by
            intro hcontra
            exact hnotin1 (hcontra ▸ List.mem_map_of_mem (fun y => y.2.hpa) hz)
          refine ⟨hz1, ?_, ?_⟩ <;> simp [if_neg hzne, hz2, hz3]
        · simpa [if_neg hbne] using hbad
        · simpa [if_neg hbne] using hne

/-- Claiming one 4-KiB page with a non-full owner stack: the entry is
invalidated, the id pushed, and the page's address yielded. -/
theorem claimNext_step (t : Table) (pp : PhysPages) (id g a : Nat)
    (rest : List (Nat × PTE))
    (hcap : (pp.owners a).length < pp.maxOwners) :
    claimNext t pp id ((g, ⟨a, SZ4K, true⟩) :: rest) =
      .yielded a (t.invalidateAt g) (pushOwner pp id a) rest := by
  simp [claimNext, PhysPages.set_page_owner, hcap]

/-- Evaluation of `buildGuest` on six yielded 4-KiB pages whose first four
physical addresses are consecutive and 16-KiB-aligned, when every owner
stack has room: the child root is built from the first four pages, page 5
seeds the PTE pool, page 6 is the state page, all six table entries are
invalidated and the fresh id is pushed onto all six owner stacks. -/
theorem buildGuest_six (t : Table) (pp : PhysPages) (id a1 a5 a6 g1 g2 g3 g4 g5 g6 : Nat)
    (hb : a1 + 3 * SZ4K < SeqP.WORD)
    (har : a1 % TOP_LEVEL_ALIGN = 0)
    (hnd : ([a1, a1 + SZ4K, a1 + 2 * SZ4K, a1 + 3 * SZ4K, a5, a6] : List Nat).Nodup)
    (hcap : ∀ x ∈ ([a1, a1 + SZ4K, a1 + 2 * SZ4K, a1 + 3 * SZ4K, a5, a6] : List Nat),
      (pp.owners x).length < pp.maxOwners) :
    buildGuest t pp id
      [(g1, ⟨a1, SZ4K, true⟩), (g2, ⟨a1 + SZ4K, SZ4K, true⟩),
       (g3, ⟨a1 + 2 * SZ4K, SZ4K, true⟩), (g4, ⟨a1 + 3 * SZ4K, SZ4K, true⟩),
       (g5, ⟨a5, SZ4K, true⟩), (g6, ⟨a6, SZ4K, true⟩)] =
      (.ok (GuestRootBuilder.new ⟨id, ⟨a1, 4⟩, fun _ => none⟩ a5, a6),
        (((((t.invalidateAt g1).invalidateAt g2).invalidateAt g3).invalidateAt
          g4).invalidateAt g5).invalidateAt g6,
        pushOwner (pushOwner (pushOwner (pushOwner (pushOwner (pushOwner pp id a1)
          id (a1 + SZ4K)) id (a1 + 2 * SZ4K)) id (a1 + 3 * SZ4K)) id a5) id a6) := by
  have hc1 := hcap a1 (by simp)
  have hc2 := hcap (a1 + SZ4K) (by simp)
  have hc3 := hcap (a1 + 2 * SZ4K) (by simp)
  have hc4 := hcap (a1 + 3 * SZ4K) (by simp)
  have hc5 := hcap a5 (by simp)
  have hc6 := hcap a6 (by simp)
  simp only [List.nodup_cons, List.mem_cons, List.not_mem_nil, or_false, not_or,
    List.nodup_nil, and_true] at hnd
  obtain ⟨⟨h12, h13, h14, h15, h16⟩, ⟨h23, h24, h25, h26⟩, ⟨h34, h35, h36⟩,
    ⟨h45, h46⟩, h56, -⟩ := hnd
  have hsz : SZ4K = 4096 := rfl
  have hb1 : a1 + SZ4K < SeqP.WORD := by omega
  have hb2 : a1 + SZ4K + SZ4K < SeqP.WORD := by omega
  have hb3 : a1 + SZ4K + SZ4K + SZ4K < SeqP.WORD := by omega
  have harr2 : a1 + 2 * SZ4K = a1 + SZ4K + SZ4K := by ring
  have harr3 : a1 + 3 * SZ4K = a1 + SZ4K + SZ4K + SZ4K := by ring
  have e1 := claimNext_step t pp id g1 a1
    [(g2, ⟨a1 + SZ4K, SZ4K, true⟩), (g3, ⟨a1 + 2 * SZ4K, SZ4K, true⟩),
     (g4, ⟨a1 + 3 * SZ4K, SZ4K, true⟩), (g5, ⟨a5, SZ4K, true⟩),
     (g6, ⟨a6, SZ4K, true⟩)] hc1
  have e2 := claimNext_step (t.invalidateAt g1) (pushOwner pp id a1) id g2 (a1 + SZ4K)
    [(g3, ⟨a1 + 2 * SZ4K, SZ4K, true⟩), (g4, ⟨a1 + 3 * SZ4K, SZ4K, true⟩),
     (g5, ⟨a5, SZ4K, true⟩), (g6, ⟨a6, SZ4K, true⟩)]
    (by rw [pushOwner_owners, if_neg (Ne.symm h12)]; exact hc2)
  have e3 := claimNext_step ((t.invalidateAt g1).invalidateAt g2)
    (pushOwner (pushOwner pp id a1) id (a1 + SZ4K)) id g3 (a1 + 2 * SZ4K)
    [(g4, ⟨a1 + 3 * SZ4K, SZ4K, true⟩), (g5, ⟨a5, SZ4K, true⟩),
     (g6, ⟨a6, SZ4K, true⟩)]
    (by rw [pushOwner_owners, if_neg (Ne.symm h23), pushOwner_owners,
      if_neg (Ne.symm h13)]; exact hc3)
  have e4 := claimNext_step (((t.invalidateAt g1).invalidateAt g2).invalidateAt g3)
    (pushOwner (pushOwner (pushOwner pp id a1) id (a1 + SZ4K)) id (a1 + 2 * SZ4K))
    id g4 (a1 + 3 * SZ4K)
    [(g5, ⟨a5, SZ4K, true⟩), (g6, ⟨a6, SZ4K, true⟩)]
    (by rw [pushOwner_owners, if_neg (Ne.symm h34), pushOwner_owners,
      if_neg (Ne.symm h24), pushOwner_owners, if_neg (Ne.symm h14)]; exact hc4)
  have e5 := claimNext_step ((((t.invalidateAt g1).invalidateAt g2).invalidateAt
      g3).invalidateAt g4)
    (pushOwner (pushOwner (pushOwner (pushOwner pp id a1) id (a1 + SZ4K))
      id (a1 + 2 * SZ4K)) id (a1 + 3 * SZ4K)) id g5 a5
    [(g6, ⟨a6, SZ4K, true⟩)]
    (by rw [pushOwner_owners, if_neg (Ne.symm h45), pushOwner_owners,
      if_neg (Ne.symm h35), pushOwner_owners, if_neg (Ne.symm h25),
      pushOwner_owners, if_neg (Ne.symm h15)]; exact hc5)
  have e6 := claimNext_step (((((t.invalidateAt g1).invalidateAt g2).invalidateAt
      g3).invalidateAt g4).invalidateAt g5)
    (pushOwner (pushOwner (pushOwner (pushOwner (pushOwner pp id a1)
      id (a1 + SZ4K)) id (a1 + 2 * SZ4K)) id (a1 + 3 * SZ4K)) id a5) id g6 a6
    ([] : List (Nat × PTE))
    (by rw [pushOwner_owners, if_neg (Ne.symm h56), pushOwner_owners,
      if_neg (Ne.symm h46), pushOwner_owners, if_neg (Ne.symm h36),
      pushOwner_owners, if_neg (Ne.symm h26), pushOwner_owners,
      if_neg (Ne.symm h16)]; exact hc6)
  have hTnew : Table.new ⟨a1, 4⟩ id =
      .ok { ownerId := id, rootSeq := ⟨a1, 4⟩, entries := fun _ => none } := by
    simp [Table.new, har]
  rw [harr2, harr3] at e1 e2 e3 e4 e5 e6
  simp only [buildGuest, e1, e2, e3, e4, e5, e6, hTnew, harr2, harr3, hb1, hb2, hb3,
    and_self, if_true, eq_self_iff_true, true_and, and_true, if_pos]

/-- Past its three early guards, `buildGuest` either succeeds or panics —
in particular it can never produce `Non4kPteEntry`. -/
theorem buildGuest_ok_or_panic (t : Table) (pp : PhysPages) (id : Nat)
    (ys : List (Nat × PTE)) :
    (buildGuest t pp id ys).1 = .error Error.Panic ∨
    ∃ r, (buildGuest t pp id ys).1 = .ok r := by
  rw [buildGuest]
  repeat' split
  all_goals first
    | exact Or.inl rfl
    | exact Or.inr ⟨_, rfl⟩

/-- `create_guest_root_builder` can fail only with `UnalignedVmPages`,
`GuestId`, `InvalidRange` or a panic — never with `Non4kPteEntry`. -/
theorem create_guest_root_builder_no_non4k (t : Table) (pp : PhysPages)
    (fromA : Nat) :
    (create_guest_root_builder t pp fromA).1 ≠ .error Error.Non4kPteEntry := by
  rw [create_guest_root_builder]
  split
  · simp
  · split
    · simp
    · rename_i id1 pp1 heq
      split
      · rcases buildGuest_ok_or_panic t pp1 id1 (t.invYields fromA 6) with h | ⟨r, h⟩ <;>
          simp [h]
      · simp

theorem invalidateAt_entries (t : Table) (g x : Nat) :
    (t.invalidateAt g).entries x =
      if x = g then (t.entries g).map (fun e => { e with valid := false })
      else t.entries x := rfl

set_option maxRecDepth 1024 in
set_option maxHeartbeats 2000000 in
/-- C3 (corrected): for a 16-KiB-aligned `from_gpa` whose six 4-KiB slots
are all mapped with valid 4-KiB pages, the first four of them at
consecutive 16-KiB-aligned physical addresses, and whose owner stacks have
room, `create_guest_root_builder` invalidates exactly those 6 entries,
pushes the freshly allocated child id onto each of the 6 pages' owner
stacks, builds the child root table from the first 4 pages, seeds the PTE
pool with page 5 and returns page 6 as the state page.  A non-4-KiB
unmapped page, however, panics (`unwrap_4k`): the call never fails with
`Non4kPteEntry` (second conjunct). -/
theorem claim_C3_create_guest_root_builder
    (t : Table) (pp : PhysPages) (fromA a1 a5 a6 : Nat)
    (hal : fromA % TOP_LEVEL_ALIGN = 0)
    (hrange : fromA + 6 * SZ4K ≤ SeqP.WORD)
    (hguest : pp.active.length < pp.maxGuests)
    (he0 : t.entries fromA = some ⟨a1, SZ4K, true⟩)
    (he1 : t.entries (fromA + SZ4K) = some ⟨a1 + SZ4K, SZ4K, true⟩)
    (he2 : t.entries (fromA + 2 * SZ4K) = some ⟨a1 + 2 * SZ4K, SZ4K, true⟩)
    (he3 : t.entries (fromA + 3 * SZ4K) = some ⟨a1 + 3 * SZ4K, SZ4K, true⟩)
    (he4 : t.entries (fromA + 4 * SZ4K) = some ⟨a5, SZ4K, true⟩)
    (he5 : t.entries (fromA + 5 * SZ4K) = some ⟨a6, SZ4K, true⟩)
    (hb : a1 + 3 * SZ4K < SeqP.WORD)
    (har : a1 % TOP_LEVEL_ALIGN = 0)
    (hnd : ([a1, a1 + SZ4K, a1 + 2 * SZ4K, a1 + 3 * SZ4K, a5, a6] : List Nat).Nodup)
    (hcap : ∀ x ∈ ([a1, a1 + SZ4K, a1 + 2 * SZ4K, a1 + 3 * SZ4K, a5, a6] : List Nat),
      (pp.owners x).length < pp.maxOwners) :
    ((create_guest_root_builder t pp fromA).1 =
        .ok (GuestRootBuilder.new ⟨pp.nextId, ⟨a1, 4⟩, fun _ => none⟩ a5, a6) ∧
      (∀ i, i < 6 → (create_guest_root_builder t pp fromA).2.1.entries
          (fromA + i * SZ4K) =
        (t.entries (fromA + i * SZ4K)).map fun e => { e with valid := false }) ∧
      (∀ g, (∀ i, i < 6 → g ≠ fromA + i * SZ4K) →
        (create_guest_root_builder t pp fromA).2.1.entries g = t.entries g) ∧
      (∀ x ∈ ([a1, a1 + SZ4K, a1 + 2 * SZ4K, a1 + 3 * SZ4K, a5, a6] : List Nat),
        (create_guest_root_builder t pp fromA).2.2.owners x =
          pp.nextId :: pp.owners x) ∧
      (∀ x, x ∉ ([a1, a1 + SZ4K, a1 + 2 * SZ4K, a1 + 3 * SZ4K, a5, a6] : List Nat) →
        (create_guest_root_builder t pp fromA).2.2.owners x = pp.owners x) ∧
      (create_guest_root_builder t pp fromA).2.2.active = pp.nextId :: pp.active ∧
      (create_guest_root_builder t pp fromA).2.2.nextId = pp.nextId + 1) ∧
    (∀ (t' : Table) (pp' : PhysPages) (fromA' : Nat),
      (create_guest_root_builder t' pp' fromA').1 ≠ .error Error.Non4kPteEntry) := by
  refine ⟨?_, fun t' pp' fromA' => create_guest_root_builder_no_non4k t' pp' fromA'⟩
  have hszv : SZ4K = 4096 := rfl
  have hys : t.invYields fromA 6 =
      [(fromA, ⟨a1, SZ4K, true⟩), (fromA + SZ4K, ⟨a1 + SZ4K, SZ4K, true⟩),
       (fromA + 2 * SZ4K, ⟨a1 + 2 * SZ4K, SZ4K, true⟩),
       (fromA + 3 * SZ4K, ⟨a1 + 3 * SZ4K, SZ4K, true⟩),
       (fromA + 4 * SZ4K, ⟨a5, SZ4K, true⟩),
       (fromA + 5 * SZ4K, ⟨a6, SZ4K, true⟩)] := by
    have hr6 : List.range 6 = [0, 1, 2, 3, 4, 5] := rfl
    simp [Table.invYields, gpas, hr6, he0, he1, he2, he3, he4, he5]
  have hadd : pp.add_active_guest =
      .ok (pp.nextId,
        { pp with active := pp.nextId :: pp.active, nextId := pp.nextId + 1 }) := by
    simp [PhysPages.add_active_guest, hguest]
  have hrOk : rangeOk fromA 6 := ⟨hal, hrange⟩
  have hcreate : create_guest_root_builder t pp fromA =
      buildGuest t { pp with active := pp.nextId :: pp.active, nextId := pp.nextId + 1 }
        pp.nextId (t.invYields fromA 6) := by
    simp [create_guest_root_builder, hal, hadd, hrOk]
  rw [hys] at hcreate
  rw [buildGuest_six t
    { pp with active := pp.nextId :: pp.active, nextId := pp.nextId + 1 }
    pp.nextId a1 a5 a6 fromA (fromA + SZ4K) (fromA + 2 * SZ4K) (fromA + 3 * SZ4K)
    (fromA + 4 * SZ4K) (fromA + 5 * SZ4K) hb har hnd hcap] at hcreate
  have hg01 : fromA ≠ fromA + SZ4K := by omega
  have hg02 : fromA ≠ fromA + 2 * SZ4K := by omega
  have hg03 : fromA ≠ fromA + 3 * SZ4K := by omega
  have hg04 : fromA ≠ fromA + 4 * SZ4K := by omega
  have hg05 : fromA ≠ fromA + 5 * SZ4K := by omega
  have hg12 : fromA + SZ4K ≠ fromA + 2 * SZ4K := by omega
  have hg13 : fromA + SZ4K ≠ fromA + 3 * SZ4K := by omega
  have hg14 : fromA + SZ4K ≠ fromA + 4 * SZ4K := by omega
  have hg15 : fromA + SZ4K ≠ fromA + 5 * SZ4K := by omega
  have hg23 : fromA + 2 * SZ4K ≠ fromA + 3 * SZ4K := by omega
  have hg24 : fromA + 2 * SZ4K ≠ fromA + 4 * SZ4K := by omega
  have hg25 : fromA + 2 * SZ4K ≠ fromA + 5 * SZ4K := by omega
  have hg34 : fromA + 3 * SZ4K ≠ fromA + 4 * SZ4K := by omega
  have hg35 : fromA + 3 * SZ4K ≠ fromA + 5 * SZ4K := by omega
  have hg45 : fromA + 4 * SZ4K ≠ fromA + 5 * SZ4K := by omega
  simp only [List.nodup_cons, List.mem_cons, List.not_mem_nil, or_false, not_or,
    List.nodup_nil, and_true] at hnd
  obtain ⟨⟨h12, h13, h14, h15, h16⟩, ⟨h23, h24, h25, h26⟩, ⟨h34, h35, h36⟩,
    ⟨h45, h46⟩, h56, -⟩ := hnd
  have hppG : ∀ y, (PhysPages.mk pp.owners (pp.nextId :: pp.active)
      (pp.nextId + 1) pp.maxOwners pp.maxGuests).owners y = pp.owners y :=
    fun _ => rfl
  refine ⟨?_, ?_, ?_, ?_, ?_, ?_, ?_⟩
  · rw [hcreate]
  · intro i hi
    rw [hcreate]
    have hsplit : i = 0 ∨ i = 1 ∨ i = 2 ∨ i = 3 ∨ i = 4 ∨ i = 5 := by omega
    rcases hsplit with rfl | rfl | rfl | rfl | rfl | rfl
    · simp only [zero_mul, Nat.add_zero]
      rw [invalidateAt_entries, if_neg hg05, invalidateAt_entries, if_neg hg04,
        invalidateAt_entries, if_neg hg03, invalidateAt_entries, if_neg hg02,
        invalidateAt_entries, if_neg hg01, invalidateAt_entries, if_pos rfl]
    · simp only [one_mul]
      rw [invalidateAt_entries, if_neg hg15, invalidateAt_entries, if_neg hg14,
        invalidateAt_entries, if_neg hg13, invalidateAt_entries, if_neg hg12,
        invalidateAt_entries, if_pos rfl, invalidateAt_entries,
        if_neg (Ne.symm hg01)]
    · rw [invalidateAt_entries, if_neg hg25, invalidateAt_entries, if_neg hg24,
        invalidateAt_entries, if_neg hg23, invalidateAt_entries, if_pos rfl,
        invalidateAt_entries, if_neg (Ne.symm hg12), invalidateAt_entries,
        if_neg (Ne.symm hg02)]
    · rw [invalidateAt_entries, if_neg hg35, invalidateAt_entries, if_neg hg34,
        invalidateAt_entries, if_pos rfl, invalidateAt_entries,
        if_neg (Ne.symm hg23), invalidateAt_entries, if_neg (Ne.symm hg13),
        invalidateAt_entries, if_neg (Ne.symm hg03)]
    · rw [invalidateAt_entries, if_neg hg45, invalidateAt_entries, if_pos rfl,
        invalidateAt_entries, if_neg (Ne.symm hg34), invalidateAt_entries,
        if_neg (Ne.symm hg24), invalidateAt_entries, if_neg (Ne.symm hg14),
        invalidateAt_entries, if_neg (Ne.symm hg04)]
    · rw [invalidateAt_entries, if_pos rfl, invalidateAt_entries,
        if_neg (Ne.symm hg45), invalidateAt_entries, if_neg (Ne.symm hg35),
        invalidateAt_entries, if_neg (Ne.symm hg25), invalidateAt_entries,
        if_neg (Ne.symm hg15), invalidateAt_entries, if_neg (Ne.symm hg05)]
  · intro g hg
    have k0 : g ≠ fromA := by simpa using hg 0 (by omega)
    have k1 : g ≠ fromA + SZ4K := by simpa using hg 1 (by omega)
    have k2 : g ≠ fromA + 2 * SZ4K := by simpa using hg 2 (by omega)
    have k3 : g ≠ fromA + 3 * SZ4K := by simpa using hg 3 (by omega)
    have k4 : g ≠ fromA + 4 * SZ4K := by simpa using hg 4 (by omega)
    have k5 : g ≠ fromA + 5 * SZ4K := by simpa using hg 5 (by omega)
    rw [hcreate]
    rw [invalidateAt_entries, if_neg k5, invalidateAt_entries, if_neg k4,
      invalidateAt_entries, if_neg k3, invalidateAt_entries, if_neg k2,
      invalidateAt_entries, if_neg k1, invalidateAt_entries, if_neg k0]
  · intro x hx
    rw [hcreate]
    rcases List.mem_cons.mp hx with h | hx
    · subst h
      rw [pushOwner_owners, if_neg h16, pushOwner_owners, if_neg h15,
        pushOwner_owners, if_neg h14, pushOwner_owners, if_neg h13,
        pushOwner_owners, if_neg h12, pushOwner_owners, if_pos rfl]
    rcases List.mem_cons.mp hx with h | hx
    · subst h
      rw [pushOwner_owners, if_neg h26, pushOwner_owners, if_neg h25,
        pushOwner_owners, if_neg h24, pushOwner_owners, if_neg h23,
        pushOwner_owners, if_pos rfl, pushOwner_owners, if_neg (Ne.symm h12)]
    rcases List.mem_cons.mp hx with h | hx
    · subst h
      rw [pushOwner_owners, if_neg h36, pushOwner_owners, if_neg h35,
        pushOwner_owners, if_neg h34, pushOwner_owners, if_pos rfl,
        pushOwner_owners, if_neg (Ne.symm h23), pushOwner_owners,
        if_neg (Ne.symm h13)]
    rcases List.mem_cons.mp hx with h | hx
    · subst h
      rw [pushOwner_owners, if_neg h46, pushOwner_owners, if_neg h45,
        pushOwner_owners, if_pos rfl, pushOwner_owners, if_neg (Ne.symm h34),
        pushOwner_owners, if_neg (Ne.symm h24), pushOwner_owners,
        if_neg (Ne.symm h14)]
    rcases List.mem_cons.mp hx with h | hx
    · subst h
      rw [pushOwner_owners, if_neg h56, pushOwner_owners, if_pos rfl,
        pushOwner_owners, if_neg (Ne.symm h45), pushOwner_owners,
        if_neg (Ne.symm h35), pushOwner_owners, if_neg (Ne.symm h25),
        pushOwner_owners, if_neg (Ne.symm h15)]
    rcases List.mem_cons.mp hx with h | hx
    · subst h
      rw [pushOwner_owners, if_pos rfl, pushOwner_owners, if_neg (Ne.symm h56),
        pushOwner_owners, if_neg (Ne.symm h46), pushOwner_owners,
        if_neg (Ne.symm h36), pushOwner_owners, if_neg (Ne.symm h26),
        pushOwner_owners, if_neg (Ne.symm h16)]
    · simp at hx
  · intro x hx
    simp only [List.mem_cons, List.not_mem_nil, or_false, not_or] at hx
    obtain ⟨k1, k2, k3, k4, k5, k6⟩ := hx
    rw [hcreate]
    rw [pushOwner_owners, if_neg k6, pushOwner_owners, if_neg k5,
      pushOwner_owners, if_neg k4, pushOwner_owners, if_neg k3,
      pushOwner_owners, if_neg k2, pushOwner_owners, if_neg k1]
  · rw [hcreate]
    rfl
  · rw [hcreate]
    rfl

/-- C3 counterexample: with a non-4-KiB page among the 6 unmapped entries,
`create_guest_root_builder` does not fail with `Non4kPteEntry` — the
`unwrap_4k` coercion panics instead. -/
theorem claim_C3_counterexample :
    (create_guest_root_builder guestNon4kTable guestNon4kPP 0).1 =
      .error Error.Panic ∧
    (create_guest_root_builder guestNon4kTable guestNon4kPP 0).1 ≠
      .error Error.Non4kPteEntry := by
  refine ⟨rfl, fun h => ?_⟩
  have h0 : (create_guest_root_builder guestNon4kTable guestNon4kPP 0).1 =
      .error Error.Panic := rfl
  rw [h0] at h
  simp at h

/-- C3 witness: on the concrete state the call returns the builder whose
root table is the 4-page range at `0x20000` owned by the fresh id 5, with
PTE-pool page `0x30000` and state page `0x31000`, and pushes 5 onto the
owner stack of the first root page. -/
theorem claim_C3_witness :
    (create_guest_root_builder guestOkTable guestOkPP 0).1 =
      .ok (GuestRootBuilder.new ⟨5, ⟨0x20000, 4⟩, fun _ => none⟩ 0x30000, 0x31000) ∧
    (create_guest_root_builder guestOkTable guestOkPP 0).2.2.owners 0x20000 =
      5 :: [1, 0] := by
  have h := claim_C3_create_guest_root_builder guestOkTable guestOkPP 0
    0x20000 0x30000 0x31000 (by decide) (by decide) (by decide)
    (by decide) (by decide) (by decide) (by decide) (by decide) (by decide)
    (by decide) (by decide) (by decide) (by decide)
  exact ⟨h.1.1, h.1.2.2.2.1 0x20000 (by decide)⟩

/-- C4 (confirmed): when `remove_4k_pages(from, n)` succeeds, the owner
stack of every reclaimed page has been popped exactly once — the popped top
was this `VmPages`'s owner and the new top is the owner below it in the
donation chain (the parent); pages outside the reclaimed set are untouched.
And when the yielded pages are well-formed 4-KiB frames with non-empty
stacks but some page's top-of-stack owner differs from this owner id, the
call fails with `UnownedPage` on the first such page in GPA order. -/
theorem claim_C4_remove_pops_once_and_enforces_owner :
    (∀ (t : Table) (pp : PhysPages) (fromA count : Nat),
      (((t.unmapYields fromA count).map fun y => y.2.hpa).Nodup) →
      (remove_4k_pages t pp fromA count).1 = .ok count →
      ∀ y ∈ t.unmapYields fromA count,
        (pp.owners y.2.hpa).head? = some t.ownerId ∧
        (pp.owners y.2.hpa).tail ≠ [] ∧
        ((remove_4k_pages t pp fromA count).2.2).owners y.2.hpa =
          (pp.owners y.2.hpa).tail) ∧
    (∀ (t : Table) (pp : PhysPages) (fromA count gb : Nat) (eb : PTE)
       (good rest : List (Nat × PTE)),
      rangeOk fromA count →
      t.unmapYields fromA count = good ++ (gb, eb) :: rest →
      (∀ y ∈ good, y.2.szBytes = SZ4K ∧
        (pp.owners y.2.hpa).head? = some t.ownerId ∧
        (pp.owners y.2.hpa).tail ≠ []) →
      ((good.map fun y => y.2.hpa).Nodup) →
      (eb.hpa ∉ good.map fun y => y.2.hpa) →
      eb.szBytes = SZ4K →
      (pp.owners eb.hpa).head? ≠ some t.ownerId →
      pp.owners eb.hpa ≠ [] →
      (remove_4k_pages t pp fromA count).1 = .error (.UnownedPage eb.hpa)) := by
  constructor
  · intro t pp fromA count hnd hok
    by_cases hr : rangeOk fromA count
    · rw [remove_4k_pages, if_pos hr] at hok ⊢
      exact (removeLoop_ok_pops (t.unmapYields fromA count) t.ownerId count t pp hnd hok).1
    · rw [remove_4k_pages, if_neg hr] at hok
      cases hok
  · intro t pp fromA count gb eb good rest hr hys hgood hnd hnotin hsz hbad hne
    rw [remove_4k_pages, if_pos hr, hys]
    exact removeLoop_first_unowned good gb eb rest t.ownerId count t pp hgood hnd hnotin hsz hbad hne

/-- C4 witness: reclaiming the two pages succeeds, and the stack of the
frame at `0xA000` was popped exactly once — from `[3, 1]` to `[1]`, the
parent. -/
theorem claim_C4_witness :
    (removeTestPP.owners 0xA000).head? = some removeTestTable.ownerId ∧
    (removeTestPP.owners 0xA000).tail ≠ [] ∧
    ((remove_4k_pages removeTestTable removeTestPP 0x4000 2).2.2).owners 0xA000 =
      (removeTestPP.owners 0xA000).tail :=
  claim_C4_remove_pops_once_and_enforces_owner.1 removeTestTable removeTestPP
    0x4000 2 (by decide) (by rfl) (0x4000, ⟨0xA000, SZ4K, true⟩) (by decide)

/-- C5 (confirmed): a `from_addr` that is 4-KiB-aligned (its type) but not
16-KiB-aligned makes `create_guest_root_builder` return
`Err(UnalignedVmPages(from_addr))` with the table and the page directory
untouched — in particular no guest id is allocated. -/
theorem claim_C5_unaligned_no_mutation (t : Table) (pp : PhysPages) (fromA : Nat)
    (h4k : fromA % SZ4K = 0) (hna : fromA % TOP_LEVEL_ALIGN ≠ 0) :
    create_guest_root_builder t pp fromA =
      (.error (.UnalignedVmPages fromA), t, pp) := by
  simp [create_guest_root_builder, hna]

theorem hostDataLoop_ok_measurement :
    ∀ (l : List (Nat × Nat)) (ptePages : List Nat) (m : List (Nat × Nat))
      (t : Table) (pp : PhysPages) (b' : HostRootBuilder) (pp' : PhysPages),
    hostDataLoop ptePages m t pp l = (.ok b', pp') →
    b'.measurement = m ++ l.map (fun x => (x.2, x.1)) := by
  intro l
  induction l with
  | nil =>
    intro ptePages m t pp b' pp' h
    rw [hostDataLoop] at h
    cases h
    simp
  | cons x rest ih =>
    intro ptePages m t pp b' pp' h
    rcases x with ⟨page, vmAddr⟩
    rw [hostDataLoop] at h
    split at h
    · cases h
    · split at h
      · cases h
      · split at h
        · cases h
        · have := ih _ _ _ _ _ _ h
          rw [this]
          simp

theorem hostZeroLoop_ok_measurement :
    ∀ (l : List (Nat × Nat)) (ptePages : List Nat) (meas : List (Nat × Nat))
      (t : Table) (pp : PhysPages) (b' : HostRootBuilder) (pp' : PhysPages),
    hostZeroLoop ptePages meas t pp l = (.ok b', pp') →
    b'.measurement = meas := by
  intro l
  induction l with
  | nil =>
    intro ptePages meas t pp b' pp' h
    rw [hostZeroLoop] at h
    cases h
    rfl
  | cons x rest ih =>
    intro ptePages meas t pp b' pp' h
    rcases x with ⟨page, vmAddr⟩
    rw [hostZeroLoop] at h
    split at h
    · cases h
    · split at h
      · cases h
      · split at h
        · cases h
        · exact ih _ _ _ _ _ _ h

/-- C10 (confirmed): `HostRootBuilder::add_4k_data_pages` restarts its
measurement from `D::default()` — on success the resulting builder's
measurement is exactly the `(gpa, page)` fold of this one call, whatever
the builder had accumulated before; `add_4k_pages` preserves the existing
measurement; and `create_host` hands the builder's measurement unchanged to
the resulting `VmPages`, so the measurement there reflects only the most
recent `add_4k_data_pages` call. -/
theorem claim_C10_host_measurement_discarded :
    (∀ (b : HostRootBuilder) (pp : PhysPages) (toAddr : Nat) (pages : List Nat)
       (b' : HostRootBuilder) (pp' : PhysPages),
      b.add_4k_data_pages pp toAddr pages = (.ok b', pp') →
      b'.measurement = (hostZip pages toAddr).map (fun x => (x.2, x.1))) ∧
    (∀ (b : HostRootBuilder) (pp : PhysPages) (toAddr : Nat) (pages : List Nat)
       (b' : HostRootBuilder) (pp' : PhysPages),
      b.add_4k_pages pp toAddr pages = (.ok b', pp') →
      b'.measurement = b.measurement) ∧
    (∀ b : HostRootBuilder, b.create_host.into_inner.get_measurement = b.measurement) := by
  refine ⟨?_, ?_, fun b => rfl⟩
  · intro b pp toAddr pages b' pp' h
    have := hostDataLoop_ok_measurement (hostZip pages toAddr) b.pte_pages [] b.root pp b' pp' h
    simpa using this
  · intro b pp toAddr pages b' pp' h
    exact hostZeroLoop_ok_measurement (hostZip pages toAddr) b.pte_pages b.measurement b.root pp b' pp' h

/-- C10 witness: a builder that already measured `(1, 2)` maps one data
page at GPA `0x10000`; the new measurement is exactly that one pair — the
old measurement is gone. -/
theorem claim_C10_witness :
    (HostRootBuilder.mk
        ⟨1, ⟨0x8000, 4⟩, fun a => if a = 0x10000 then some ⟨0x10000, 4096, true⟩ else none⟩
        [] [(0x10000, 0x10000)]).measurement =
      (hostZip [0x10000] 0x10000).map (fun x => (x.2, x.1)) :=
  claim_C10_host_measurement_discarded.1
    ⟨⟨1, ⟨0x8000, 4⟩, fun _ => none⟩, [], [(1, 2)]⟩
    ⟨fun _ => [0], [1], 2, 8, 4⟩ 0x10000 [0x10000]
    (HostRootBuilder.mk
      ⟨1, ⟨0x8000, 4⟩, fun a => if a = 0x10000 then some ⟨0x10000, 4096, true⟩ else none⟩
      [] [(0x10000, 0x10000)])
    ⟨fun a => if a = 0x10000 then [1, 0] else [0], [1], 2, 8, 4⟩ rfl

/-- C5 witness: `0x1000` is 4-KiB- but not 16-KiB-aligned; the rejection
returns the very same table and directory. -/
theorem claim_C5_witness :
    create_guest_root_builder ⟨1, ⟨0x8000, 4⟩, fun _ => none⟩
        ⟨fun _ => [0], [1], 2, 8, 4⟩ 0x1000 =
      (.error (.UnalignedVmPages 0x1000), ⟨1, ⟨0x8000, 4⟩, fun _ => none⟩,
        ⟨fun _ => [0], [1], 2, 8, 4⟩) :=
  claim_C5_unaligned_no_mutation ⟨1, ⟨0x8000, 4⟩, fun _ => none⟩
    ⟨fun _ => [0], [1], 2, 8, 4⟩ 0x1000 (by decide) (by decide)

end VmM
